import Mathlib

/-!
# Box breathing timer (`src/app.js`): session state machine and animation projection

A shallow embedding of the session record `state`, of the handlers that mutate it
(`togglePlay`, `resetToStart`, `startWithPreset`, the `setInterval` callback of
`startInterval`, the settings handlers attached by `render`) and of the progress
computation of `animate` / `drawScene`.

Modelling conventions:
* JavaScript numbers that hold whole seconds (`countdown`, `totalTime`, `phaseTime`)
  are `Int`; they are exact as long as they stay below `2^53`.
* `performance.now()` is an input: every handler receives the current timestamp `now`
  (milliseconds, a rational number); the clock reads within one run of a handler
  yield the same value.
* `interval` and `animationFrame` record whether the `setInterval` timer and the
  `requestAnimationFrame` loop are armed (`clearInterval` / `cancelAnimationFrame`
  disarm them).
* Audio, wake lock and DOM output are not part of the session state.
-/

namespace BoxBreathing

/-- The mutable record `state` of `src/app.js` (lines 10-26) together with the two
scheduler handles `interval`, `animationFrameId` and the variable `lastStateUpdate`
(lines 121-123). -/
structure State where
  isPlaying : Bool
  count : Nat
  countdown : Int
  totalTime : Int
  soundEnabled : Bool
  timeLimit : String
  sessionComplete : Bool
  timeLimitReached : Bool
  phaseTime : Int
  pulseStartTime : Option ℚ
  hasStarted : Bool
  interval : Bool
  animationFrame : Bool
  lastStateUpdate : Option ℚ
  deriving DecidableEq

/-- The record literal of lines 10-26; the timer handles start out unset. -/
def initialState : State :=
  { isPlaying := false
    count := 0
    countdown := 4
    totalTime := 0
    soundEnabled := false
    timeLimit := ""
    sessionComplete := false
    timeLimitReached := false
    phaseTime := 4
    pulseStartTime := none
    hasStarted := false
    interval := false
    animationFrame := false
    lastStateUpdate := none }

/-! ## `parseInt` (radix omitted), on exact integers -/

/-- Code points that `parseInt` skips at the start of its argument (ECMAScript
`WhiteSpace` and `LineTerminator`). -/
def isJsWhiteSpace (c : Char) : Bool :=
  c.toNat = 9 || c.toNat = 10 || c.toNat = 11 || c.toNat = 12 || c.toNat = 13 ||
  c.toNat = 32 || c.toNat = 160 || c.toNat = 5760 ||
  (8192 ≤ c.toNat && c.toNat ≤ 8202) ||
  c.toNat = 8232 || c.toNat = 8233 || c.toNat = 8239 || c.toNat = 8287 ||
  c.toNat = 12288 || c.toNat = 65279

/-- Value of a character as a digit in the given radix, if it is one. -/
def digitValue (radix : Nat) (c : Char) : Option Nat :=
  let v : Option Nat :=
    if 48 ≤ c.toNat ∧ c.toNat ≤ 57 then some (c.toNat - 48)
    else if 97 ≤ c.toNat ∧ c.toNat ≤ 122 then some (c.toNat - 97 + 10)
    else if 65 ≤ c.toNat ∧ c.toNat ≤ 90 then some (c.toNat - 65 + 10)
    else none
  match v with
  | some d => if d < radix then some d else none
  | none => none

/-- Reads the longest run of digits at the head of the list; `none` when there is
no digit at all. The accumulator holds the value read so far. -/
def readDigits (radix : Nat) : List Char → Option Nat → Option Nat
  | [], acc => acc
  | c :: cs, acc =>
    match digitValue radix c with
    | some d => readDigits radix cs (some (acc.getD 0 * radix + d))
    | none => acc

/-- JavaScript `parseInt(string)` with the radix omitted: leading white space is
skipped, an optional sign is read, a `0x` / `0X` prefix selects radix 16 and otherwise
radix 10 is used; the longest run of digits is the value. `none` stands for `NaN`. -/
def parseInt (str : String) : Option Int :=
  let cs := str.toList.dropWhile isJsWhiteSpace
  let (neg, cs) :=
    match cs with
    | '-' :: rest => (true, rest)
    | '+' :: rest => (false, rest)
    | _ => (false, cs)
  let (radix, cs) :=
    match cs with
    | '0' :: 'x' :: rest => (16, rest)
    | '0' :: 'X' :: rest => (16, rest)
    | _ => (10, cs)
  match readDigits radix cs none with
  | some n => some (if neg then - (n : Int) else (n : Int))
  | none => none

/-! ## Handlers -/

/-- `startInterval` (lines 190-227), the part that runs at once: the old timer is
cleared, `lastStateUpdate` is stamped and a new timer is armed. -/
def startInterval (now : ℚ) (s : State) : State :=
  { s with lastStateUpdate := some now, interval := true }

/-- The `else` branch of `togglePlay` (lines 155-159): timer and animation loop are
cancelled and `pulseStartTime` is cleared. -/
def pauseBranch (s : State) : State :=
  { s with interval := false, animationFrame := false, pulseStartTime := none }

/-- The first-start initialisation of `togglePlay` (lines 140-147). -/
def firstStart (s : State) : State :=
  if !s.hasStarted then
    { s with
      hasStarted := true
      totalTime := 0
      countdown := s.phaseTime
      count := 0
      timeLimitReached := false
      sessionComplete := false }
  else s

/-- `togglePlay` (lines 135-162). -/
def togglePlay (now : ℚ) (s : State) : State :=
  let s := { s with isPlaying := !s.isPlaying }
  if s.isPlaying then
    let s := firstStart s
    let s := { s with pulseStartTime := some now }
    let s := startInterval now s
    { s with animationFrame := true }
  else
    pauseBranch s

/-- `resetToStart` (lines 164-177). -/
def resetToStart (s : State) : State :=
  { s with
    isPlaying := false
    hasStarted := false
    totalTime := 0
    countdown := s.phaseTime
    count := 0
    sessionComplete := false
    timeLimitReached := false
    interval := false
    animationFrame := false }

/-- `toggleSound` (lines 179-182). -/
def toggleSound (s : State) : State :=
  { s with soundEnabled := !s.soundEnabled }

/-- `startWithPreset` (lines 184-188); `minutes.toString()` is `toString minutes`. -/
def startWithPreset (minutes : Nat) (now : ℚ) (s : State) : State :=
  let s := { s with timeLimit := toString minutes }
  let s := resetToStart s
  togglePlay now s

/-- The time-limit check of the timer callback (lines 199-203). A string is truthy
when it is not empty; a comparison with `NaN` is false. -/
def checkTimeLimit (s : State) : State :=
  if s.timeLimit ≠ "" ∧ s.timeLimitReached = false then
    match parseInt s.timeLimit with
    | some minutes =>
      if s.totalTime ≥ minutes * 60 then { s with timeLimitReached := true } else s
    | none => s
  else s

/-- The end-of-session test after a phase change (lines 212-219). -/
def endSession (s : State) : State :=
  if s.count = 3 ∧ s.timeLimitReached = true then
    { s with
      sessionComplete := true
      isPlaying := false
      interval := false
      animationFrame := false }
  else s

/-- The callback passed to `setInterval` (lines 194-226), run once per second while
the timer is armed. -/
def tick (now : ℚ) (s : State) : State :=
  if !s.isPlaying then s
  else
    let s := { s with totalTime := s.totalTime + 1 }
    let s := checkTimeLimit s
    let s :=
      if s.countdown ≤ 1 then
        endSession
          { s with
            count := (s.count + 1) % 4
            countdown := s.phaseTime
            pulseStartTime := some now }
      else
        { s with countdown := s.countdown - 1 }
    { s with lastStateUpdate := some now }

/-- The slider handler (lines 479-482): `phaseTime` becomes the parsed slider value. -/
def setPhaseTime (value : Int) (s : State) : State :=
  { s with phaseTime := value }

/-- The time-limit input handler (line 487). -/
def setTimeLimit (value : String) (s : State) : State :=
  { s with timeLimit := value }

/-- State after the first `n` firings of the timer callback, the `i`-th firing
(counted from 0) happening at time `clock i`. -/
def runTicks (clock : Nat → ℚ) : Nat → State → State
  | 0, s => s
  | n + 1, s => tick (clock n) (runTicks clock n s)

/-! ## Animation projection -/

/-- The progress value that `animate` (lines 339-349) hands to `drawScene`; `none`
when `animate` returns at once because the session is not playing (or when no timer
callback has stamped `lastStateUpdate` yet). Exact rational arithmetic stands for the
floating-point arithmetic of the source. -/
def animate (now : ℚ) (s : State) : Option ℚ :=
  if !s.isPlaying then none
  else
    match s.lastStateUpdate with
    | none => none
    | some lastStateUpdate =>
      let elapsed := (now - lastStateUpdate) / 1000
      let effectiveCountdown := (s.countdown : ℚ) - elapsed
      let progress := ((s.phaseTime : ℚ) - effectiveCountdown) / (s.phaseTime : ℚ)
      some (max 0 (min 1 progress))

/-- The progress value of the static frame drawn by the pause branch of `togglePlay`
(line 159). -/
def pausedProgress (s : State) : ℚ :=
  ((s.phaseTime : ℚ) - (s.countdown : ℚ)) / (s.phaseTime : ℚ)

/-- `easedProgress` of `drawScene` (line 257), over the real numbers. -/
noncomputable def easedProgress (progress : ℚ) : ℝ :=
  0.5 - Real.cos (Real.pi * max 0 (min 1 (progress : ℝ))) / 2

/-! ## Events and reachable states -/

/-- What can happen to the session: a click on one of the controls that `render`
wires up, an input on one of the settings, or a firing of the interval timer. -/
inductive Event where
  | togglePlay (now : ℚ)
  | resetToStart
  | startWithPreset (minutes : Nat) (now : ℚ)
  | tick (now : ℚ)
  | setPhaseTime (value : Int)
  | setTimeLimit (value : String)
  | toggleSound
  deriving DecidableEq

/-- The handler that runs for an event. -/
def Event.apply : Event → State → State
  | .togglePlay now, s => BoxBreathing.togglePlay now s
  | .resetToStart, s => BoxBreathing.resetToStart s
  | .startWithPreset minutes now, s => BoxBreathing.startWithPreset minutes now s
  | .tick now, s => BoxBreathing.tick now s
  | .setPhaseTime value, s => BoxBreathing.setPhaseTime value s
  | .setTimeLimit value, s => BoxBreathing.setTimeLimit value s
  | .toggleSound, s => BoxBreathing.toggleSound s

/-- When an event can occur, as `render` (lines 352-495) arranges it: the play/pause
button exists only while the session is not complete (lines 396, 446-451), the
"Start Over" button only once it is complete (lines 452-458), the settings panel with
the slider (values 3 to 8, line 427), the limit field, the sound switch and the preset
chips (2, 5 and 10 minutes, lines 437-439) only while the session is neither playing
nor complete (lines 409, 473); the timer callback fires only while the timer is
armed. -/
def Event.enabled : Event → State → Prop
  | .togglePlay _, s => s.sessionComplete = false
  | .resetToStart, s => s.sessionComplete = true
  | .startWithPreset minutes _, s =>
    s.isPlaying = false ∧ s.sessionComplete = false ∧
      (minutes = 2 ∨ minutes = 5 ∨ minutes = 10)
  | .tick _, s => s.interval = true
  | .setPhaseTime value, s =>
    s.isPlaying = false ∧ s.sessionComplete = false ∧ 3 ≤ value ∧ value ≤ 8
  | .setTimeLimit _, s => s.isPlaying = false ∧ s.sessionComplete = false
  | .toggleSound, s => s.isPlaying = false ∧ s.sessionComplete = false

instance (e : Event) (s : State) : Decidable (e.enabled s) := by
  cases e <;> simp only [Event.enabled] <;> infer_instance

/-- States the page can be in: the initial state and whatever enabled events lead to. -/
inductive Reachable : State → Prop where
  | init : Reachable initialState
  | step {s : State} (e : Event) : Reachable s → e.enabled s → Reachable (e.apply s)

/-- States of one session with phase duration `p`: the session is started from an idle
state (`togglePlay` with `hasStarted` false) or by a preset chip, and is then only
ticked, paused and resumed. -/
inductive SessionReach (p : Int) : State → Prop where
  | start (now : ℚ) (s : State) : s.isPlaying = false → s.hasStarted = false →
      s.phaseTime = p → SessionReach p (togglePlay now s)
  | preset (minutes : Nat) (now : ℚ) (s : State) : s.phaseTime = p →
      SessionReach p (startWithPreset minutes now s)
  | tick (now : ℚ) {s : State} : SessionReach p s → SessionReach p (tick now s)
  | toggle (now : ℚ) {s : State} : SessionReach p s → SessionReach p (togglePlay now s)

/-- Whether the time-limit test of the timer callback (lines 200-202) succeeds on `s`. -/
def limitHit (s : State) : Bool :=
  decide (s.timeLimit ≠ "") &&
    match parseInt s.timeLimit with
    | some minutes => decide (minutes * 60 ≤ s.totalTime)
    | none => false

/-- The limit in seconds that the timer callback compares `totalTime` with, if the
limit field holds a number. -/
def limitSecs (s : State) : Option Int :=
  if s.timeLimit = "" then none else (parseInt s.timeLimit).map (· * 60)

/-- Facts that hold in every state the page can be in. -/
def Inv (s : State) : Prop :=
  s.count < 4 ∧ s.interval = s.isPlaying ∧
  (s.isPlaying = true → s.hasStarted = true) ∧
  (s.timeLimitReached = true → s.hasStarted = true) ∧
  (s.sessionComplete = true →
    s.isPlaying = false ∧ s.count = 3 ∧ s.timeLimitReached = true) ∧
  3 ≤ s.phaseTime ∧ s.phaseTime ≤ 8 ∧ 1 ≤ s.countdown ∧ s.countdown ≤ 8 ∧
  s.animationFrame = s.isPlaying

/-- Number of consecutive ticks, ending with tick `n`, that fired while the phase was
Wait: the time spent in the current Wait phase after `n` ticks. -/
def ticksSpentInWait (clock : Nat → ℚ) (s0 : State) : Nat → Nat
  | 0 => 0
  | n + 1 =>
    if (runTicks clock n s0).count = 3 then ticksSpentInWait clock s0 n + 1 else 0

/-- The session used in the worked scenarios: the initial state with the limit field
set to one minute (the phase duration is the initial 4 seconds), then started at time
0. -/
def oneMinuteSession : State :=
  togglePlay 0 (setTimeLimit "1" initialState)

/-- A clock on which the `i`-th timer callback (counted from 0) fires at `1000 (i + 1)`
milliseconds. -/
def secondsClock (i : Nat) : ℚ :=
  1000 * ((i : ℚ) + 1)

/-- A session resumed in mid-phase: the initial session (phase duration 4) is started
at time 0, ticked twice, paused at time 2500 and resumed at time 3000. -/
def resumedSession : State :=
  togglePlay 3000 (togglePlay 2500 (runTicks secondsClock 2 (togglePlay 0 initialState)))

/-- A state in which the countdown exceeds the phase duration: the slider is set to 8,
the session is started and paused, the slider is set to 3 and the session is resumed
at time 1000. -/
def shortenedSession : State :=
  togglePlay 1000 (setPhaseTime 3 (togglePlay 500 (togglePlay 0 (setPhaseTime 8 initialState))))

/-- What `togglePlay` does when it pauses: line 136 turns `isPlaying` off and the
`else` branch (lines 155-159) runs. -/
def pause (s : State) : State :=
  pauseBranch { s with isPlaying := false }

/-- The session used to show the effect of the slider: the initial session (phase
duration 4) is started at time 0, ticked once and paused at time 1500. -/
def pausedSession : State :=
  togglePlay 1500 (runTicks secondsClock 1 (togglePlay 0 initialState))

/-- The first tick at or after `60 * L` seconds at which the phase enters Wait, for
phase duration `p`: the least `n ≥ 60 * L` with `n % (4 * p) = 3 * p`. -/
def completionTick (p L : Nat) : Nat :=
  if (60 * L) % (4 * p) ≤ 3 * p then 60 * L + (3 * p - (60 * L) % (4 * p))
  else 60 * L + (4 * p - (60 * L) % (4 * p)) + 3 * p

/-! ## Basic facts about the handlers -/

theorem checkTimeLimit_eq (s : State) :
    checkTimeLimit s = { s with timeLimitReached := s.timeLimitReached || limitHit s } := by
  obtain ⟨a, b, c, d, e, tl, g, tlr, i, j, k, l, m, n⟩ := s
  simp only [checkTimeLimit, limitHit]
  by_cases h1 : tl = ""
  · simp [h1]
  · cases tlr
    · cases h3 : parseInt tl with
      | none => simp [h1]
      | some v =>
        by_cases h4 : v * 60 ≤ d
        · simp [h1, h4]
        · simp [h1, h4]
    · simp [h1]

theorem tick_eq (now : ℚ) (s : State) (hplay : s.isPlaying = true) :
    tick now s =
      if s.countdown ≤ 1 then
        { endSession
            { s with
              totalTime := s.totalTime + 1
              timeLimitReached :=
                s.timeLimitReached || limitHit { s with totalTime := s.totalTime + 1 }
              count := (s.count + 1) % 4
              countdown := s.phaseTime
              pulseStartTime := some now } with lastStateUpdate := some now }
      else
        { s with
          totalTime := s.totalTime + 1
          timeLimitReached :=
            s.timeLimitReached || limitHit { s with totalTime := s.totalTime + 1 }
          countdown := s.countdown - 1
          lastStateUpdate := some now } := by
  simp only [tick, hplay, checkTimeLimit_eq]
  by_cases h : s.countdown ≤ 1
  · simp [h]
  · simp [h]

theorem tick_of_not_playing (now : ℚ) (s : State) (h : s.isPlaying = false) :
    tick now s = s := by
  simp [tick, h]

theorem succ_div_mod_of_lt (n p : Nat) (h : n % p + 1 < p) :
    (n + 1) / p = n / p ∧ (n + 1) % p = n % p + 1 := by
  have hp : 0 < p := by omega
  have := Nat.div_add_mod n p
  exact (Nat.div_mod_unique hp).2 ⟨by linarith, h⟩

theorem succ_div_mod_of_eq (n p : Nat) (hp : 0 < p) (h : n % p + 1 = p) :
    (n + 1) / p = n / p + 1 ∧ (n + 1) % p = 0 := by
  have := Nat.div_add_mod n p
  refine (Nat.div_mod_unique hp).2 ⟨?_, hp⟩
  rw [Nat.mul_add]; omega

theorem limitHit_eq_false (s : State) (h : ∀ l, limitSecs s = some l → s.totalTime < l) :
    limitHit s = false := by
  unfold limitHit
  by_cases h1 : s.timeLimit = ""
  · simp [h1]
  · cases h3 : parseInt s.timeLimit with
    | none => simp
    | some m =>
      have := h (m * 60) (by simp [limitSecs, h1, h3])
      have h4 : ¬ (m * 60 ≤ s.totalTime) := by omega
      simp [h4]

/-- One firing of the timer callback on a playing session whose limit (if any) is
still ahead. -/
theorem tick_before_limit (now : ℚ) (s : State) (hplay : s.isPlaying = true)
    (htlr : s.timeLimitReached = false)
    (hlim : ∀ l, limitSecs s = some l → s.totalTime + 1 < l) :
    (tick now s).isPlaying = true ∧ (tick now s).totalTime = s.totalTime + 1 ∧
    (tick now s).timeLimitReached = false ∧
    (tick now s).sessionComplete = s.sessionComplete ∧
    (tick now s).phaseTime = s.phaseTime ∧ (tick now s).timeLimit = s.timeLimit ∧
    (tick now s).interval = s.interval ∧ (tick now s).hasStarted = s.hasStarted ∧
    (s.countdown ≤ 1 → (tick now s).count = (s.count + 1) % 4 ∧
      (tick now s).countdown = s.phaseTime) ∧
    (1 < s.countdown → (tick now s).count = s.count ∧
      (tick now s).countdown = s.countdown - 1) := by
  have hh : limitHit { s with totalTime := s.totalTime + 1 } = false :=
    limitHit_eq_false _ (fun l hl => hlim l (by simpa [limitSecs] using hl))
  rw [tick_eq now s hplay, hh]
  by_cases h : s.countdown ≤ 1
  · have h2 : ¬ (1 < s.countdown) := by omega
    simp [h, h2, endSession, htlr, hplay]
  · have h2 : 1 < s.countdown := by omega
    simp [h, h2, htlr, hplay]

/-- Closed form of a running session before its time limit: after `n` ticks the
phase is `(n / p) % 4`, the countdown is `p - n % p` and `n` seconds have elapsed. -/
theorem runTicks_before_limit (clock : Nat → ℚ) (s0 : State) (p : Nat) (hp : 1 ≤ p)
    (hplay : s0.isPlaying = true) (hpt : s0.phaseTime = p) (hcd : s0.countdown = p)
    (hc : s0.count = 0) (htt : s0.totalTime = 0) (htlr : s0.timeLimitReached = false)
    (n : Nat) (hlim : ∀ l, limitSecs s0 = some l → (n : Int) < l) :
    (runTicks clock n s0).isPlaying = true ∧
    (runTicks clock n s0).count = (n / p) % 4 ∧
    (runTicks clock n s0).countdown = (p : Int) - ((n % p : Nat) : Int) ∧
    (runTicks clock n s0).totalTime = n ∧
    (runTicks clock n s0).timeLimitReached = false ∧
    (runTicks clock n s0).sessionComplete = s0.sessionComplete ∧
    (runTicks clock n s0).phaseTime = p ∧
    (runTicks clock n s0).timeLimit = s0.timeLimit ∧
    (runTicks clock n s0).interval = s0.interval ∧
    (runTicks clock n s0).hasStarted = s0.hasStarted := by
  induction n with
  | zero => simp [runTicks, hplay, hpt, hcd, hc, htt, htlr]
  | succ n ih =>
    obtain ⟨i1, i2, i3, i4, i5, i6, i7, i8, i9, i10⟩ :=
      ih (fun l hl => by have := hlim l hl; push_cast at this; omega)
    have hl2 : ∀ l, limitSecs (runTicks clock n s0) = some l →
        (runTicks clock n s0).totalTime + 1 < l := by
      intro l hl
      have : limitSecs s0 = some l := by simpa [limitSecs, i8] using hl
      have := hlim l this
      push_cast at this; omega
    obtain ⟨t1, t2, t3, t4, t5, t6, t7, t8, t9, t10⟩ :=
      tick_before_limit (clock n) (runTicks clock n s0) i1 i5 hl2
    have hmod : n % p < p := Nat.mod_lt n (by omega)
    simp only [runTicks]
    refine ⟨t1, ?_, ?_, by rw [t2, i4]; push_cast; ring, t3, by rw [t4, i6],
      by rw [t5, i7], by rw [t6, i8], by rw [t7, i9], by rw [t8, i10]⟩
    · by_cases hcase : n % p + 1 < p
      · obtain ⟨d1, d2⟩ := succ_div_mod_of_lt n p hcase
        rw [(t10 (by rw [i3]; omega)).1, i2, d1]
      · obtain ⟨d1, d2⟩ := succ_div_mod_of_eq n p (by omega) (by omega)
        rw [(t9 (by rw [i3]; omega)).1, i2, d1]; omega
    · by_cases hcase : n % p + 1 < p
      · obtain ⟨d1, d2⟩ := succ_div_mod_of_lt n p hcase
        rw [(t10 (by rw [i3]; omega)).2, i3, d2]; push_cast; ring
      · obtain ⟨d1, d2⟩ := succ_div_mod_of_eq n p (by omega) (by omega)
        rw [(t9 (by rw [i3]; omega)).2, i7, d2]; simp

/-! ## A full cycle without a time limit -/

theorem togglePlay_idle (now : ℚ) (s : State) (h1 : s.isPlaying = false)
    (h2 : s.hasStarted = false) :
    togglePlay now s =
      { s with
        isPlaying := true
        hasStarted := true
        totalTime := 0
        countdown := s.phaseTime
        count := 0
        timeLimitReached := false
        sessionComplete := false
        pulseStartTime := some now
        lastStateUpdate := some now
        interval := true
        animationFrame := true } := by
  simp [togglePlay, firstStart, startInterval, h1, h2]

/-- C1: with a phase duration `p` in [3,8] and no time limit, a session started from
an idle state is, after `n` ticks, in phase `(n / p) % 4` with countdown `p - n % p`
and `n` elapsed seconds; the phase changes exactly at the ticks that are multiples of
`p`, each time to the cyclic successor, being Hold after tick `p`, Exhale after `2p`,
Wait after `3p` and Inhale again after `4p`, where the countdown is `p` and `4p`
seconds have elapsed. -/
theorem full_cycle_closure (p : Nat) (hp3 : 3 ≤ p) (hp8 : p ≤ 8) (s : State)
    (hplay : s.isPlaying = false) (hstart : s.hasStarted = false)
    (hpt : s.phaseTime = p) (hlim : s.timeLimit = "") (t0 : ℚ) (clock : Nat → ℚ) :
    (togglePlay t0 s).count = 0 ∧ (togglePlay t0 s).countdown = p ∧
    (togglePlay t0 s).isPlaying = true ∧
    (∀ n, (runTicks clock n (togglePlay t0 s)).isPlaying = true ∧
      (runTicks clock n (togglePlay t0 s)).count = (n / p) % 4 ∧
      (runTicks clock n (togglePlay t0 s)).countdown = (p : Int) - ((n % p : Nat) : Int) ∧
      (runTicks clock n (togglePlay t0 s)).totalTime = n) ∧
    (∀ n, n < 4 * p →
      ((n + 1) % p = 0 →
        (runTicks clock (n + 1) (togglePlay t0 s)).count =
          ((runTicks clock n (togglePlay t0 s)).count + 1) % 4) ∧
      ((n + 1) % p ≠ 0 →
        (runTicks clock (n + 1) (togglePlay t0 s)).count =
          (runTicks clock n (togglePlay t0 s)).count)) ∧
    (runTicks clock p (togglePlay t0 s)).count = 1 ∧
    (runTicks clock (2 * p) (togglePlay t0 s)).count = 2 ∧
    (runTicks clock (3 * p) (togglePlay t0 s)).count = 3 ∧
    (runTicks clock (4 * p) (togglePlay t0 s)).count = 0 ∧
    (runTicks clock (4 * p) (togglePlay t0 s)).countdown = p ∧
    (runTicks clock (4 * p) (togglePlay t0 s)).totalTime = 4 * p := by
  have hs0 := togglePlay_idle t0 s hplay hstart
  have hnone : limitSecs (togglePlay t0 s) = none := by
    rw [hs0]; simp [limitSecs, hlim]
  have key : ∀ n, (runTicks clock n (togglePlay t0 s)).isPlaying = true ∧
      (runTicks clock n (togglePlay t0 s)).count = (n / p) % 4 ∧
      (runTicks clock n (togglePlay t0 s)).countdown = (p : Int) - ((n % p : Nat) : Int) ∧
      (runTicks clock n (togglePlay t0 s)).totalTime = n := by
    intro n
    obtain ⟨r1, r2, r3, r4, -⟩ :=
      runTicks_before_limit clock (togglePlay t0 s) p (by omega) (by rw [hs0])
        (by rw [hs0]; exact hpt) (by rw [hs0]; exact hpt) (by rw [hs0]) (by rw [hs0])
        (by rw [hs0]) n (fun l hl => by rw [hnone] at hl; cases hl)
    exact ⟨r1, r2, r3, r4⟩
  have hp0 : 0 < p := by omega
  have e1 : p / p = 1 := Nat.div_self hp0
  have e2 : 2 * p / p = 2 := Nat.mul_div_cancel 2 hp0
  have e3 : 3 * p / p = 3 := Nat.mul_div_cancel 3 hp0
  have e4 : 4 * p / p = 4 := Nat.mul_div_cancel 4 hp0
  refine ⟨by rw [hs0], by rw [hs0]; exact hpt, by rw [hs0], key, ?_, ?_, ?_, ?_, ?_, ?_, ?_⟩
  · intro n _
    have hmod : n % p < p := Nat.mod_lt n hp0
    constructor
    · intro h0
      have hcase : n % p + 1 = p := by
        by_contra hne
        have := (succ_div_mod_of_lt n p (by omega)).2
        omega
      rw [(key (n + 1)).2.1, (key n).2.1, (succ_div_mod_of_eq n p hp0 hcase).1]
      omega
    · intro h0
      have hcase : n % p + 1 < p := by
        by_contra hne
        have := (succ_div_mod_of_eq n p hp0 (by omega)).2
        exact h0 this
      rw [(key (n + 1)).2.1, (key n).2.1, (succ_div_mod_of_lt n p hcase).1]
  · rw [(key p).2.1, e1]
  · rw [(key (2 * p)).2.1, e2]
  · rw [(key (3 * p)).2.1, e3]
  · rw [(key (4 * p)).2.1, e4]
  · rw [(key (4 * p)).2.2.1, Nat.mul_mod_left]; simp
  · rw [(key (4 * p)).2.2.2]; push_cast; ring

/-- C1 at `p = 4` from the initial state: 16 ticks close the cycle. -/
theorem full_cycle_closure_witness :
    (runTicks (fun i => 1000 * ((i : ℚ) + 1)) 16 (togglePlay 0 initialState)).count = 0 ∧
    (runTicks (fun i => 1000 * ((i : ℚ) + 1)) 16 (togglePlay 0 initialState)).countdown = 4 ∧
    (runTicks (fun i => 1000 * ((i : ℚ) + 1)) 16 (togglePlay 0 initialState)).totalTime = 16 := by
  have h := full_cycle_closure 4 (by decide) (by decide) initialState rfl rfl rfl rfl 0
    (fun i => 1000 * ((i : ℚ) + 1))
  exact ⟨h.2.2.2.2.2.2.2.2.1, h.2.2.2.2.2.2.2.2.2.1, h.2.2.2.2.2.2.2.2.2.2⟩

theorem runTicks_add (clock : Nat → ℚ) (m n : Nat) (s : State) :
    runTicks clock (m + n) s = runTicks (fun i => clock (m + i)) n (runTicks clock m s) := by
  induction n with
  | zero => rfl
  | succ n ih =>
    show tick (clock (m + n)) (runTicks clock (m + n) s) = _
    rw [ih]; rfl

theorem runTicks_of_not_playing (clock : Nat → ℚ) (n : Nat) (s : State)
    (h : s.isPlaying = false) : runTicks clock n s = s := by
  induction n with
  | zero => rfl
  | succ n ih => simp only [runTicks, ih, tick_of_not_playing _ _ h]

/-- Trace of a session with a one-minute limit and four-second phases, started from
an idle state: nothing completes during the first 59 ticks, tick 60 both reaches the
limit and enters Wait, and the session is complete from then on. -/
theorem one_minute_trace (s : State) (hplay : s.isPlaying = false)
    (hstart : s.hasStarted = false) (hpt : s.phaseTime = 4) (hlim : s.timeLimit = "1")
    (t0 : ℚ) (clock : Nat → ℚ) :
    (∀ n, n < 60 →
      (runTicks clock n (togglePlay t0 s)).isPlaying = true ∧
      (runTicks clock n (togglePlay t0 s)).count = (n / 4) % 4 ∧
      (runTicks clock n (togglePlay t0 s)).countdown = 4 - ((n % 4 : Nat) : Int) ∧
      (runTicks clock n (togglePlay t0 s)).timeLimitReached = false ∧
      (runTicks clock n (togglePlay t0 s)).sessionComplete = false) ∧
    (∀ n, 60 ≤ n →
      (runTicks clock n (togglePlay t0 s)).isPlaying = false ∧
      (runTicks clock n (togglePlay t0 s)).count = 3 ∧
      (runTicks clock n (togglePlay t0 s)).countdown = 4 ∧
      (runTicks clock n (togglePlay t0 s)).totalTime = 60 ∧
      (runTicks clock n (togglePlay t0 s)).timeLimitReached = true ∧
      (runTicks clock n (togglePlay t0 s)).sessionComplete = true) := by
  have hs0 := togglePlay_idle t0 s hplay hstart
  have hp1 : parseInt "1" = some 1 := by decide
  have hne : ("1" : String) ≠ "" := by decide
  have hsecs : limitSecs (togglePlay t0 s) = some 60 := by
    rw [hs0]; simp [limitSecs, hlim, hp1]
  have key : ∀ n, n < 60 → _ := fun n hn =>
    runTicks_before_limit clock (togglePlay t0 s) 4 (by omega) (by rw [hs0])
      (by rw [hs0]; exact hpt) (by rw [hs0]; exact hpt) (by rw [hs0]) (by rw [hs0])
      (by rw [hs0]) n (fun l hl => by
        rw [hsecs] at hl; cases hl; exact_mod_cast hn)
  have h60 : (runTicks clock 60 (togglePlay t0 s)).isPlaying = false ∧
      (runTicks clock 60 (togglePlay t0 s)).count = 3 ∧
      (runTicks clock 60 (togglePlay t0 s)).countdown = 4 ∧
      (runTicks clock 60 (togglePlay t0 s)).totalTime = 60 ∧
      (runTicks clock 60 (togglePlay t0 s)).timeLimitReached = true ∧
      (runTicks clock 60 (togglePlay t0 s)).sessionComplete = true := by
    obtain ⟨r1, r2, r3, r4, r5, r6, r7, r8, -⟩ := key 59 (by omega)
    have hcd : (runTicks clock 59 (togglePlay t0 s)).countdown ≤ 1 := by
      rw [r3]; decide
    have htl : (runTicks clock 59 (togglePlay t0 s)).timeLimit = "1" := by
      rw [r8, hs0]; exact hlim
    have hhit : limitHit { runTicks clock 59 (togglePlay t0 s) with
        totalTime := (runTicks clock 59 (togglePlay t0 s)).totalTime + 1 } = true := by
      simp [limitHit, htl, hp1, r4]
    have e : runTicks clock 60 (togglePlay t0 s)
        = tick (clock 59) (runTicks clock 59 (togglePlay t0 s)) := rfl
    rw [e, tick_eq _ _ r1, if_pos hcd, hhit]
    simp [endSession, r2, r4, r7]
  refine ⟨fun n hn => ?_, fun n hn => ?_⟩
  · obtain ⟨r1, r2, r3, r4, r5, r6, -⟩ := key n hn
    refine ⟨r1, r2, r3, r5, ?_⟩
    rw [r6, hs0]
  · obtain ⟨k, rfl⟩ := Nat.exists_eq_add_of_le hn
    rw [runTicks_add, runTicks_of_not_playing _ _ _ h60.1]
    exact h60

/-- The timer callback on a playing session, with the new value of the latch named. -/
theorem tick_cases (now : ℚ) (s : State) (hplay : s.isPlaying = true) :
    ∃ b : Bool, b = (s.timeLimitReached || limitHit { s with totalTime := s.totalTime + 1 }) ∧
      (s.countdown ≤ 1 → ((s.count + 1) % 4 = 3 ∧ b = true) →
        tick now s =
          { s with
            totalTime := s.totalTime + 1
            timeLimitReached := b
            count := (s.count + 1) % 4
            countdown := s.phaseTime
            pulseStartTime := some now
            sessionComplete := true
            isPlaying := false
            interval := false
            animationFrame := false
            lastStateUpdate := some now }) ∧
      (s.countdown ≤ 1 → ¬ ((s.count + 1) % 4 = 3 ∧ b = true) →
        tick now s =
          { s with
            totalTime := s.totalTime + 1
            timeLimitReached := b
            count := (s.count + 1) % 4
            countdown := s.phaseTime
            pulseStartTime := some now
            lastStateUpdate := some now }) ∧
      (¬ s.countdown ≤ 1 →
        tick now s =
          { s with
            totalTime := s.totalTime + 1
            timeLimitReached := b
            countdown := s.countdown - 1
            lastStateUpdate := some now }) := by
  refine ⟨_, rfl, ?_, ?_, ?_⟩
  · intro h1 h2
    rw [tick_eq _ _ hplay, if_pos h1]
    simp only [endSession]
    rw [if_pos h2]
  · intro h1 h2
    rw [tick_eq _ _ hplay, if_pos h1]
    simp only [endSession]
    rw [if_neg h2]
  · intro h1
    rw [tick_eq _ _ hplay, if_neg h1]

theorem inv_initialState : Inv initialState := by
  simp [Inv, initialState]

theorem inv_togglePlay (now : ℚ) (s : State) (h : Inv s) (hsc : s.sessionComplete = false) :
    Inv (togglePlay now s) := by
  obtain ⟨h1, h2, h3, h4, h5, h6, h7, h8, h9, h10⟩ := h
  cases hp : s.isPlaying <;> cases hs : s.hasStarted <;>
    simp_all [Inv, togglePlay, firstStart, startInterval, pauseBranch]
  omega

theorem inv_resetToStart (s : State) (h : Inv s) : Inv (resetToStart s) := by
  obtain ⟨h1, h2, h3, h4, h5, h6, h7, h8, h9, h10⟩ := h
  simp [Inv, resetToStart, h6, h7]; omega

theorem inv_tick (now : ℚ) (s : State) (h : Inv s) : Inv (tick now s) := by
  cases hp : s.isPlaying
  · rw [tick_of_not_playing _ _ hp]; exact h
  · obtain ⟨h1, h2, h3, h4, h5, h6, h7, h8, h9, h10⟩ := h
    have hsc : s.sessionComplete = false := by
      cases hc : s.sessionComplete
      · rfl
      · have := (h5 hc).1; simp_all
    have hst := h3 hp
    obtain ⟨b, hb, c1, c2, c3⟩ := tick_cases now s hp
    by_cases hcd : s.countdown ≤ 1
    · by_cases hend : (s.count + 1) % 4 = 3 ∧ b = true
      · rw [c1 hcd hend]
        simp [Inv, hend.1, hend.2, hst, h6, h7]; omega
      · rw [c2 hcd hend]
        simp [Inv, hp, hst, h2, hsc, h6, h7, h10]
        refine ⟨?_, ?_⟩ <;> omega
    · rw [c3 hcd]
      simp [Inv, hp, hst, h2, hsc, h1, h6, h7, h10]
      omega

theorem inv_of_reachable {s : State} (h : Reachable s) : Inv s := by
  induction h with
  | init => exact inv_initialState
  | @step s e _ hen ih =>
    cases e with
    | togglePlay now => exact inv_togglePlay now _ ih hen
    | resetToStart => exact inv_resetToStart _ ih
    | startWithPreset minutes now =>
      have h1 : Inv { s with timeLimit := toString minutes } := ih
      exact inv_togglePlay now _ (inv_resetToStart _ h1) rfl
    | tick now => exact inv_tick now _ ih
    | setPhaseTime value =>
      obtain ⟨h1, h2, h3, h4, h5, h6, h7, h8, h9, h10⟩ := ih
      exact ⟨h1, h2, h3, h4, h5, hen.2.2.1, hen.2.2.2, h8, h9, h10⟩
    | setTimeLimit value => exact ih
    | toggleSound => exact ih

theorem reachable_tick (now : ℚ) {s : State} (h : Reachable s) : Reachable (tick now s) := by
  cases hi : s.interval
  · have hp : s.isPlaying = false := by
      have := (inv_of_reachable h).2.1
      rw [hi] at this; exact this.symm
    rw [tick_of_not_playing _ _ hp]; exact h
  · exact Reachable.step (Event.tick now) h hi

theorem reachable_runTicks (clock : Nat → ℚ) (n : Nat) {s : State} (h : Reachable s) :
    Reachable (runTicks clock n s) := by
  induction n with
  | zero => exact h
  | succ n ih => exact reachable_tick _ ih

theorem reachable_oneMinuteSession : Reachable oneMinuteSession :=
  Reachable.step (Event.togglePlay 0)
    (Reachable.step (Event.setTimeLimit "1") Reachable.init ⟨rfl, rfl⟩) rfl

theorem oneMinuteSession_trace (clock : Nat → ℚ) :
    (∀ n, n < 60 →
      (runTicks clock n oneMinuteSession).isPlaying = true ∧
      (runTicks clock n oneMinuteSession).count = (n / 4) % 4 ∧
      (runTicks clock n oneMinuteSession).countdown = 4 - ((n % 4 : Nat) : Int) ∧
      (runTicks clock n oneMinuteSession).timeLimitReached = false ∧
      (runTicks clock n oneMinuteSession).sessionComplete = false) ∧
    (∀ n, 60 ≤ n →
      (runTicks clock n oneMinuteSession).isPlaying = false ∧
      (runTicks clock n oneMinuteSession).count = 3 ∧
      (runTicks clock n oneMinuteSession).countdown = 4 ∧
      (runTicks clock n oneMinuteSession).totalTime = 60 ∧
      (runTicks clock n oneMinuteSession).timeLimitReached = true ∧
      (runTicks clock n oneMinuteSession).sessionComplete = true) :=
  one_minute_trace (setTimeLimit "1" initialState) rfl rfl rfl rfl 0 clock

/-! ## Completion and the time limit -/

/-- C2, refuted as stated: in the session with a one-minute limit and four-second
phases the session is already complete after tick 60 (and still incomplete after
tick 59), so completion does not wait for tick 64. -/
theorem one_minute_complete_at_tick_60 :
    (runTicks secondsClock 59 oneMinuteSession).sessionComplete = false ∧
    (runTicks secondsClock 60 oneMinuteSession).timeLimitReached = true ∧
    (runTicks secondsClock 60 oneMinuteSession).sessionComplete = true ∧
    ¬ ((runTicks secondsClock 60 oneMinuteSession).sessionComplete = false ∧
       (runTicks secondsClock 61 oneMinuteSession).sessionComplete = false ∧
       (runTicks secondsClock 64 oneMinuteSession).sessionComplete = true) := by
  obtain ⟨h1, h2⟩ := oneMinuteSession_trace secondsClock
  have h60 := h2 60 (by omega)
  refine ⟨(h1 59 (by omega)).2.2.2.2, h60.2.2.2.2.1, h60.2.2.2.2.2, ?_⟩
  rintro ⟨h, -⟩
  rw [h60.2.2.2.2.2] at h
  cases h

/-- C2, amended: with a one-minute limit and four-second phases, a session started
from an idle state and ticked without pausing has `timeLimitReached` and
`sessionComplete` both false after each of the first 59 ticks, and both true after
tick 60, the tick that moves the phase from Exhale (phase 2 after tick 59) into Wait
(phase 3); they stay true after every later tick. -/
theorem one_minute_completion_tick (s : State) (hplay : s.isPlaying = false)
    (hstart : s.hasStarted = false) (hpt : s.phaseTime = 4) (hlim : s.timeLimit = "1")
    (t0 : ℚ) (clock : Nat → ℚ) :
    (∀ n, n < 60 →
      (runTicks clock n (togglePlay t0 s)).timeLimitReached = false ∧
      (runTicks clock n (togglePlay t0 s)).sessionComplete = false) ∧
    (runTicks clock 59 (togglePlay t0 s)).count = 2 ∧
    (runTicks clock 60 (togglePlay t0 s)).count = 3 ∧
    (runTicks clock 60 (togglePlay t0 s)).timeLimitReached = true ∧
    (runTicks clock 60 (togglePlay t0 s)).sessionComplete = true ∧
    (∀ n, 60 ≤ n →
      (runTicks clock n (togglePlay t0 s)).timeLimitReached = true ∧
      (runTicks clock n (togglePlay t0 s)).sessionComplete = true) := by
  obtain ⟨h1, h2⟩ := one_minute_trace s hplay hstart hpt hlim t0 clock
  have h60 := h2 60 (by omega)
  refine ⟨fun n hn => ⟨(h1 n hn).2.2.2.1, (h1 n hn).2.2.2.2⟩, ?_, h60.2.1, h60.2.2.2.2.1,
    h60.2.2.2.2.2, fun n hn => ⟨(h2 n hn).2.2.2.2.1, (h2 n hn).2.2.2.2.2⟩⟩
  rw [(h1 59 (by omega)).2.1]

/-- C2 (amended) at the initial state with the limit field set to "1". -/
theorem one_minute_completion_tick_witness :
    (runTicks secondsClock 58 (togglePlay 0 (setTimeLimit "1" initialState))).sessionComplete
      = false ∧
    (runTicks secondsClock 60 (togglePlay 0 (setTimeLimit "1" initialState))).sessionComplete
      = true := by
  have h := one_minute_completion_tick (setTimeLimit "1" initialState) rfl rfl rfl rfl 0
    secondsClock
  exact ⟨(h.1 58 (by omega)).2, h.2.2.2.2.1⟩

/-- C3: in every reachable state a complete session is not playing, is in phase Wait
and has its time limit reached; and the only event that turns `sessionComplete` from
false to true is a timer tick that moves the phase from Exhale into Wait with the time
limit reached (and stops play). -/
theorem complete_only_on_entering_wait (s : State) (h : Reachable s) :
    (s.sessionComplete = true →
      s.isPlaying = false ∧ s.count = 3 ∧ s.timeLimitReached = true) ∧
    (∀ e : Event, s.sessionComplete = false → (e.apply s).sessionComplete = true →
      (∃ now, e = Event.tick now) ∧ s.isPlaying = true ∧ s.count = 2 ∧ s.countdown ≤ 1 ∧
      (e.apply s).count = 3 ∧ (e.apply s).timeLimitReached = true ∧
      (e.apply s).isPlaying = false) := by
  have hinv := inv_of_reachable h
  obtain ⟨h1, h2, h3, h4, h5, h6, h7, h8, h9, h10⟩ := hinv
  refine ⟨h5, ?_⟩
  intro e hsc hafter
  cases e with
  | togglePlay now =>
    exfalso
    revert hafter
    cases hp : s.isPlaying <;> cases hs : s.hasStarted <;>
      simp [Event.apply, togglePlay, firstStart, startInterval, pauseBranch, hp, hs, hsc]
  | resetToStart => simp [Event.apply, resetToStart] at hafter
  | startWithPreset minutes now =>
    simp [Event.apply, startWithPreset, resetToStart, togglePlay, firstStart,
      startInterval] at hafter
  | setPhaseTime value => simp [Event.apply, setPhaseTime, hsc] at hafter
  | setTimeLimit value => simp [Event.apply, setTimeLimit, hsc] at hafter
  | toggleSound => simp [Event.apply, toggleSound, hsc] at hafter
  | tick now =>
    simp only [Event.apply] at hafter ⊢
    cases hp : s.isPlaying
    · rw [tick_of_not_playing _ _ hp, hsc] at hafter; cases hafter
    · obtain ⟨b, hb, c1, c2, c3⟩ := tick_cases now s hp
      by_cases hcd : s.countdown ≤ 1
      · by_cases hend : (s.count + 1) % 4 = 3 ∧ b = true
        · rw [c1 hcd hend]
          refine ⟨⟨now, rfl⟩, rfl, by omega, hcd, hend.1, hend.2, rfl⟩
        · rw [c2 hcd hend] at hafter
          simp [hsc] at hafter
      · rw [c3 hcd] at hafter
        simp [hsc] at hafter

/-- C3 at the reachable state after 60 ticks of the one-minute session, which is
complete. -/
theorem complete_only_on_entering_wait_witness :
    Reachable (runTicks secondsClock 60 oneMinuteSession) ∧
    (runTicks secondsClock 60 oneMinuteSession).isPlaying = false ∧
    (runTicks secondsClock 60 oneMinuteSession).count = 3 ∧
    (runTicks secondsClock 60 oneMinuteSession).timeLimitReached = true :=
  ⟨reachable_runTicks secondsClock 60 reachable_oneMinuteSession,
    (complete_only_on_entering_wait _
      (reachable_runTicks secondsClock 60 reachable_oneMinuteSession)).1
      ((oneMinuteSession_trace secondsClock).2 60 (le_refl 60)).2.2.2.2.2⟩

/-- C4: once `timeLimitReached` is true in a reachable state, a timer tick, a
pause or resume (`togglePlay`) and the settings handlers all leave it true; an event
after which it is false is `resetToStart` or a preset start (which runs
`resetToStart`), and those two do clear it. -/
theorem time_limit_latch (s : State) (h : Reachable s) (htlr : s.timeLimitReached = true) :
    (∀ now, (tick now s).timeLimitReached = true) ∧
    (∀ now, (togglePlay now s).timeLimitReached = true) ∧
    (∀ e : Event, (e.apply s).timeLimitReached = false →
      e = Event.resetToStart ∨ ∃ minutes now, e = Event.startWithPreset minutes now) ∧
    (resetToStart s).timeLimitReached = false ∧
    (∀ minutes now, (startWithPreset minutes now s).timeLimitReached = false) := by
  obtain ⟨h1, h2, h3, h4, h5, h6, h7, h8, h9, h10⟩ := inv_of_reachable h
  have hst := h4 htlr
  have htick : ∀ now, (tick now s).timeLimitReached = true := by
    intro now
    cases hp : s.isPlaying
    · rw [tick_of_not_playing _ _ hp]; exact htlr
    · obtain ⟨b, hb, c1, c2, c3⟩ := tick_cases now s hp
      have hbt : b = true := by rw [hb, htlr]; rfl
      by_cases hcd : s.countdown ≤ 1
      · by_cases hend : (s.count + 1) % 4 = 3 ∧ b = true
        · rw [c1 hcd hend]; exact hbt
        · rw [c2 hcd hend]; exact hbt
      · rw [c3 hcd]; exact hbt
  have htoggle : ∀ now, (togglePlay now s).timeLimitReached = true := by
    intro now
    cases hp : s.isPlaying <;>
      simp [togglePlay, firstStart, startInterval, pauseBranch, hp, hst, htlr]
  refine ⟨htick, htoggle, ?_, rfl, ?_⟩
  · intro e he
    cases e with
    | togglePlay now => rw [Event.apply, htoggle now] at he; cases he
    | resetToStart => exact Or.inl rfl
    | startWithPreset minutes now => exact Or.inr ⟨minutes, now, rfl⟩
    | tick now => rw [Event.apply, htick now] at he; cases he
    | setPhaseTime value => simp [Event.apply, setPhaseTime, htlr] at he
    | setTimeLimit value => simp [Event.apply, setTimeLimit, htlr] at he
    | toggleSound => simp [Event.apply, toggleSound, htlr] at he
  · intro minutes now
    simp [startWithPreset, resetToStart, togglePlay, firstStart, startInterval]

/-- C4 at the reachable state after 60 ticks of the one-minute session, where the
limit has been reached: a further tick keeps the latch. -/
theorem time_limit_latch_witness :
    (runTicks secondsClock 60 oneMinuteSession).timeLimitReached = true ∧
    (tick 61000 (runTicks secondsClock 60 oneMinuteSession)).timeLimitReached = true ∧
    (togglePlay 61000 (runTicks secondsClock 60 oneMinuteSession)).timeLimitReached = true :=
  ⟨((oneMinuteSession_trace secondsClock).2 60 (le_refl 60)).2.2.2.2.1,
    (time_limit_latch _ (reachable_runTicks secondsClock 60 reachable_oneMinuteSession)
      ((oneMinuteSession_trace secondsClock).2 60 (le_refl 60)).2.2.2.2.1).1 61000,
    (time_limit_latch _ (reachable_runTicks secondsClock 60 reachable_oneMinuteSession)
      ((oneMinuteSession_trace secondsClock).2 60 (le_refl 60)).2.2.2.2.1).2.1 61000⟩

/-- A tick that completes the session: it starts outside Wait with the countdown run
down and ends in Wait with a fresh countdown. -/
theorem tick_completes (now : ℚ) (s : State) (hbefore : s.sessionComplete = false)
    (hafter : (tick now s).sessionComplete = true) :
    s.count % 4 = 2 ∧ s.countdown ≤ 1 ∧ (tick now s).count = 3 ∧
    (tick now s).countdown = (tick now s).phaseTime ∧ (tick now s).isPlaying = false := by
  cases hp : s.isPlaying
  · rw [tick_of_not_playing _ _ hp, hbefore] at hafter; cases hafter
  · obtain ⟨b, hb, c1, c2, c3⟩ := tick_cases now s hp
    by_cases hcd : s.countdown ≤ 1
    · by_cases hend : (s.count + 1) % 4 = 3 ∧ b = true
      · have hc : s.count % 4 = 2 := by omega
        rw [c1 hcd hend]
        exact ⟨hc, hcd, hend.1, rfl, rfl⟩
      · rw [c2 hcd hend] at hafter
        simp [hbefore] at hafter
    · rw [c3 hcd] at hafter
      simp [hbefore] at hafter

/-- C5, refuted as stated: in the one-minute session with four-second phases the
session becomes complete at tick 60, and at that tick no tick has been spent in Wait
(not 4): the phase before the tick was Exhale and Wait had only just begun. -/
theorem completion_skips_final_wait :
    (runTicks secondsClock 59 oneMinuteSession).sessionComplete = false ∧
    (runTicks secondsClock 60 oneMinuteSession).sessionComplete = true ∧
    (runTicks secondsClock 59 oneMinuteSession).count = 2 ∧
    ticksSpentInWait secondsClock oneMinuteSession 60 = 0 ∧
    ticksSpentInWait secondsClock oneMinuteSession 60 ≠ 4 := by
  obtain ⟨h1, h2⟩ := oneMinuteSession_trace secondsClock
  have h59 : (runTicks secondsClock 59 oneMinuteSession).count = 2 := by
    rw [(h1 59 (by omega)).2.1]
  have ht : ticksSpentInWait secondsClock oneMinuteSession 60 = 0 := by
    simp [ticksSpentInWait, h59]
  refine ⟨(h1 59 (by omega)).2.2.2.2, (h2 60 (by omega)).2.2.2.2.2, h59, ht, ?_⟩
  rw [ht]; decide

/-- C5, amended: at the tick where `sessionComplete` becomes true, the phase before
the tick is not Wait (it is the predecessor of Wait with its countdown run down to at
most 1), the tick enters Wait with the countdown reset to `phaseTime`, and no tick has
been spent in that final Wait. -/
theorem completion_at_start_of_wait (clock : Nat → ℚ) (s0 : State) (n : Nat)
    (hbefore : (runTicks clock n s0).sessionComplete = false)
    (hafter : (runTicks clock (n + 1) s0).sessionComplete = true) :
    (runTicks clock n s0).count % 4 = 2 ∧
    (runTicks clock n s0).countdown ≤ 1 ∧
    (runTicks clock (n + 1) s0).count = 3 ∧
    (runTicks clock (n + 1) s0).countdown = (runTicks clock (n + 1) s0).phaseTime ∧
    (runTicks clock (n + 1) s0).isPlaying = false ∧
    ticksSpentInWait clock s0 (n + 1) = 0 := by
  obtain ⟨r1, r2, r3, r4, r5⟩ := tick_completes (clock n) (runTicks clock n s0) hbefore hafter
  refine ⟨r1, r2, r3, r4, r5, ?_⟩
  show (if (runTicks clock n s0).count = 3 then _ else 0) = 0
  rw [if_neg (by omega)]

/-- C5 (amended) at tick 60 of the one-minute session. -/
theorem completion_at_start_of_wait_witness :
    (runTicks secondsClock 59 oneMinuteSession).count % 4 = 2 ∧
    (runTicks secondsClock 60 oneMinuteSession).count = 3 ∧
    ticksSpentInWait secondsClock oneMinuteSession 60 = 0 := by
  have h := completion_at_start_of_wait secondsClock oneMinuteSession 59
    ((oneMinuteSession_trace secondsClock).1 59 (by omega)).2.2.2.2
    ((oneMinuteSession_trace secondsClock).2 60 (le_refl 60)).2.2.2.2.2
  exact ⟨h.1, h.2.2.1, h.2.2.2.2.2⟩


/-! ## Animation projection: bounds -/

theorem easedProgress_nonneg (progress : ℚ) : 0 ≤ easedProgress progress := by
  unfold easedProgress
  have := Real.cos_le_one (Real.pi * max 0 (min 1 (progress : ℝ)))
  norm_num
  linarith

theorem easedProgress_le_one (progress : ℚ) : easedProgress progress ≤ 1 := by
  unfold easedProgress
  have := Real.neg_one_le_cos (Real.pi * max 0 (min 1 (progress : ℝ)))
  norm_num
  linarith

theorem easedProgress_zero : easedProgress 0 = 0 := by
  norm_num [easedProgress]

theorem easedProgress_one : easedProgress 1 = 1 := by
  norm_num [easedProgress]

theorem easedProgress_half : easedProgress (1 / 2) = 1 / 2 := by
  have h : max (0 : ℝ) (min 1 (((1 / 2 : ℚ) : ℝ))) = 1 / 2 := by
    norm_num
  unfold easedProgress
  rw [h]
  have : Real.pi * (1 / 2) = Real.pi / 2 := by ring
  rw [this, Real.cos_pi_div_two]
  norm_num

theorem animate_eq (now r : ℚ) (s : State) (hplay : s.isPlaying = true)
    (hlast : s.lastStateUpdate = some r) :
    animate now s =
      some (max 0 (min 1 (((s.phaseTime : ℚ) - ((s.countdown : ℚ) - (now - r) / 1000))
        / (s.phaseTime : ℚ)))) := by
  simp [animate, hplay, hlast]

theorem reachable_resumedSession : Reachable resumedSession :=
  Reachable.step (Event.togglePlay 3000)
    (Reachable.step (Event.togglePlay 2500)
      (reachable_runTicks secondsClock 2
        (Reachable.step (Event.togglePlay 0) Reachable.init rfl)) rfl) rfl

theorem reachable_shortenedSession : Reachable shortenedSession :=
  Reachable.step (Event.togglePlay 1000)
    (Reachable.step (Event.setPhaseTime 3)
      (Reachable.step (Event.togglePlay 500)
        (Reachable.step (Event.togglePlay 0)
          (Reachable.step (Event.setPhaseTime 8) Reachable.init
            ⟨rfl, rfl, by decide, by decide⟩) rfl) rfl)
      ⟨rfl, rfl, by decide, by decide⟩) rfl

/-- C6, refuted as stated: in `resumedSession` (phase duration 4, countdown 2, both
timestamps stamped at the resume time 3000) a frame drawn at time 3000, with elapsed
time 0, has progress 1/2 and eased value 1/2, not 0; and in the reachable state
`shortenedSession` (phase duration 3, countdown 8, both timestamps 1000) a frame drawn
3 seconds after the reference timestamp has progress 0 and eased value 0, not 1. -/
theorem eased_endpoints_fail :
    Reachable resumedSession ∧
    resumedSession.phaseTime = 4 ∧
    resumedSession.lastStateUpdate = some 3000 ∧
    resumedSession.pulseStartTime = some 3000 ∧
    animate 3000 resumedSession = some (1 / 2) ∧
    easedProgress (1 / 2) ≠ 0 ∧
    Reachable shortenedSession ∧
    shortenedSession.phaseTime = 3 ∧
    shortenedSession.lastStateUpdate = some 1000 ∧
    shortenedSession.pulseStartTime = some 1000 ∧
    animate 4000 shortenedSession = some 0 ∧
    easedProgress 0 ≠ 1 := by
  refine ⟨reachable_resumedSession, rfl, rfl, rfl, ?_, ?_, reachable_shortenedSession,
    rfl, rfl, rfl, ?_, ?_⟩
  · rw [animate_eq 3000 3000 _ rfl rfl]
    have h1 : resumedSession.phaseTime = 4 := rfl
    have h2 : resumedSession.countdown = 2 := rfl
    rw [h1, h2]; norm_num
  · rw [easedProgress_half]; norm_num
  · rw [animate_eq 4000 1000 _ rfl rfl]
    have h1 : shortenedSession.phaseTime = 3 := rfl
    have h2 : shortenedSession.countdown = 8 := rfl
    rw [h1, h2]; norm_num
  · rw [easedProgress_zero]; norm_num

/-- C6, amended: for a playing state with `phaseTime` in [3,8], reference timestamp
`lastStateUpdate = r` and any `now` (in particular `now ≥ r`), `animate` yields a progress in [0,1] whose
eased value is in [0,1]; the eased value is 0 when the elapsed time is 0 and the
countdown equals `phaseTime`; it is 1 when the elapsed time is at least the countdown,
in particular when it is at least `phaseTime` and the countdown does not exceed
`phaseTime`. -/
theorem interpolation_bounds (s : State) (now r : ℚ) (hp3 : 3 ≤ s.phaseTime)
    (hp8 : s.phaseTime ≤ 8) (hplay : s.isPlaying = true)
    (hlast : s.lastStateUpdate = some r) :
    ∃ progress : ℚ, animate now s = some progress ∧
      0 ≤ progress ∧ progress ≤ 1 ∧
      0 ≤ easedProgress progress ∧ easedProgress progress ≤ 1 ∧
      (now = r → s.countdown = s.phaseTime → easedProgress progress = 0) ∧
      ((s.countdown : ℚ) ≤ (now - r) / 1000 → easedProgress progress = 1) ∧
      (s.countdown ≤ s.phaseTime → (s.phaseTime : ℚ) ≤ (now - r) / 1000 →
        easedProgress progress = 1) := by
  have hpos : (0 : ℚ) < (s.phaseTime : ℚ) := by
    have : (0 : Int) < s.phaseTime := by omega
    exact_mod_cast this
  have hone : (s.countdown : ℚ) ≤ (now - r) / 1000 →
      max (0 : ℚ) (min 1 (((s.phaseTime : ℚ) - ((s.countdown : ℚ) - (now - r) / 1000))
        / (s.phaseTime : ℚ))) = 1 := by
    intro h
    have h1 : 1 ≤ ((s.phaseTime : ℚ) - ((s.countdown : ℚ) - (now - r) / 1000))
        / (s.phaseTime : ℚ) := by
      rw [le_div_iff₀ hpos]; linarith
    rw [min_eq_left h1]; norm_num
  refine ⟨_, animate_eq now r s hplay hlast, le_max_left _ _,
    max_le zero_le_one (min_le_left _ _), easedProgress_nonneg _, easedProgress_le_one _,
    ?_, ?_, ?_⟩
  · intro h1 h2
    have : ((s.phaseTime : ℚ) - ((s.countdown : ℚ) - (now - r) / 1000))
        / (s.phaseTime : ℚ) = 0 := by
      rw [h1, h2]; simp
    rw [this]
    have : max (0 : ℚ) (min 1 0) = 0 := by norm_num
    rw [this, easedProgress_zero]
  · intro h
    rw [hone h, easedProgress_one]
  · intro h1 h2
    have h3 : (s.countdown : ℚ) ≤ (s.phaseTime : ℚ) := by exact_mod_cast h1
    rw [hone (le_trans h3 h2), easedProgress_one]

/-- C6 (amended) at the freshly started initial session, for a frame drawn at the
instant of the start. -/
theorem interpolation_bounds_witness :
    ∃ progress : ℚ, animate 0 (togglePlay 0 initialState) = some progress ∧
      0 ≤ progress ∧ progress ≤ 1 ∧ easedProgress progress = 0 := by
  obtain ⟨pr, h1, h2, h3, -, -, h6, -⟩ :=
    interpolation_bounds (togglePlay 0 initialState) 0 0 (by decide) (by decide) rfl rfl
  exact ⟨pr, h1, h2, h3, h6 rfl rfl⟩


/-! ## Reset, pause and resume -/

/-- C7: `resetToStart` applied twice gives the same state as applied once, and that
state is idle with `totalTime = 0`, `countdown = phaseTime`, phase Inhale and both
flags cleared; on a playing state `togglePlay` is the pause operation, and pausing the
paused state again changes nothing. -/
theorem reset_and_pause_idempotent (s : State) :
    resetToStart (resetToStart s) = resetToStart s ∧
    (resetToStart s).isPlaying = false ∧ (resetToStart s).hasStarted = false ∧
    (resetToStart s).totalTime = 0 ∧
    (resetToStart s).countdown = (resetToStart s).phaseTime ∧
    (resetToStart s).phaseTime = s.phaseTime ∧
    (resetToStart s).count = 0 ∧ (resetToStart s).sessionComplete = false ∧
    (resetToStart s).timeLimitReached = false ∧
    (∀ now, s.isPlaying = true →
      togglePlay now s = pause s ∧ (pause s).isPlaying = false ∧
      pause (pause s) = pause s ∧ pauseBranch (togglePlay now s) = togglePlay now s) := by
  refine ⟨rfl, rfl, rfl, rfl, rfl, rfl, rfl, rfl, rfl, ?_⟩
  intro now hplay
  have h : togglePlay now s = pause s := by
    simp [togglePlay, pause, hplay]
  exact ⟨h, rfl, rfl, by rw [h]; rfl⟩

/-- C7 at the freshly started initial session, paused at time 500. -/
theorem reset_and_pause_idempotent_witness :
    resetToStart (resetToStart (togglePlay 0 initialState))
      = resetToStart (togglePlay 0 initialState) ∧
    togglePlay 500 (togglePlay 0 initialState) = pause (togglePlay 0 initialState) ∧
    pause (pause (togglePlay 0 initialState)) = pause (togglePlay 0 initialState) :=
  ⟨(reset_and_pause_idempotent (togglePlay 0 initialState)).1,
    ((reset_and_pause_idempotent (togglePlay 0 initialState)).2.2.2.2.2.2.2.2.2 500 rfl).1,
    ((reset_and_pause_idempotent (togglePlay 0 initialState)).2.2.2.2.2.2.2.2.2 500 rfl).2.2.1⟩

theorem togglePlay_paused (now : ℚ) (s : State) (h1 : s.isPlaying = false)
    (h2 : s.hasStarted = true) :
    togglePlay now s =
      { s with
        isPlaying := true
        pulseStartTime := some now
        lastStateUpdate := some now
        interval := true
        animationFrame := true } := by
  simp [togglePlay, firstStart, startInterval, h1, h2]

/-- C8: pausing and then resuming a reachable playing state gives back the same state
except for the two timestamps `pulseStartTime` and `lastStateUpdate` (so phase,
countdown, elapsed time, both flags, `hasStarted`, phase duration, limit and sound
setting are those of the state before, and the session plays again); in general
`togglePlay` on a paused state that has started keeps phase, countdown, elapsed time
and flags, and runs the first-start initialisation only when `hasStarted` is false. -/
theorem resume_keeps_progress (s : State) (h : Reachable s) (hplay : s.isPlaying = true)
    (t1 t2 : ℚ) :
    togglePlay t2 (togglePlay t1 s) =
      { s with pulseStartTime := some t2, lastStateUpdate := some t2 } ∧
    (togglePlay t2 (togglePlay t1 s)).isPlaying = true ∧
    (togglePlay t2 (togglePlay t1 s)).count = s.count ∧
    (togglePlay t2 (togglePlay t1 s)).countdown = s.countdown ∧
    (togglePlay t2 (togglePlay t1 s)).totalTime = s.totalTime ∧
    (togglePlay t2 (togglePlay t1 s)).timeLimitReached = s.timeLimitReached ∧
    (togglePlay t2 (togglePlay t1 s)).sessionComplete = s.sessionComplete ∧
    (togglePlay t2 (togglePlay t1 s)).hasStarted = s.hasStarted ∧
    (togglePlay t2 (togglePlay t1 s)).phaseTime = s.phaseTime ∧
    (togglePlay t2 (togglePlay t1 s)).timeLimit = s.timeLimit ∧
    (togglePlay t2 (togglePlay t1 s)).soundEnabled = s.soundEnabled ∧
    (∀ (q : State) (now : ℚ), q.isPlaying = false → q.hasStarted = true →
      (togglePlay now q).count = q.count ∧ (togglePlay now q).countdown = q.countdown ∧
      (togglePlay now q).totalTime = q.totalTime ∧
      (togglePlay now q).timeLimitReached = q.timeLimitReached ∧
      (togglePlay now q).sessionComplete = q.sessionComplete) ∧
    (∀ (q : State) (now : ℚ), q.isPlaying = false → q.hasStarted = false →
      (togglePlay now q).count = 0 ∧ (togglePlay now q).countdown = q.phaseTime ∧
      (togglePlay now q).totalTime = 0 ∧
      (togglePlay now q).timeLimitReached = false ∧
      (togglePlay now q).sessionComplete = false ∧
      (togglePlay now q).hasStarted = true) := by
  obtain ⟨h1, h2, h3, h4, h5, h6, h7, h8, h9, h10⟩ := inv_of_reachable h
  have hst := h3 hplay
  have hp : togglePlay t1 s = pause s := by simp [togglePlay, pause, hplay]
  have key : togglePlay t2 (togglePlay t1 s) =
      { s with pulseStartTime := some t2, lastStateUpdate := some t2 } := by
    rw [hp, togglePlay_paused t2 (pause s) rfl hst]
    obtain ⟨a, b, c, d, e, f, g, i, j, k, l, m, n, o⟩ := s
    simp only [pause, pauseBranch] at *
    simp_all
  refine ⟨key, ?_, ?_, ?_, ?_, ?_, ?_, ?_, ?_, ?_, ?_, ?_, ?_⟩
  · rw [key]; exact hplay
  · rw [key]
  · rw [key]
  · rw [key]
  · rw [key]
  · rw [key]
  · rw [key]
  · rw [key]
  · rw [key]
  · rw [key]
  · intro q now q1 q2
    rw [togglePlay_paused now q q1 q2]
    exact ⟨rfl, rfl, rfl, rfl, rfl⟩
  · intro q now q1 q2
    rw [togglePlay_idle now q q1 q2]
    exact ⟨rfl, rfl, rfl, rfl, rfl, rfl⟩

/-- C8 at the initial session after one tick: pausing at 1500 and resuming at 1800
keeps the countdown at 3. -/
theorem resume_keeps_progress_witness :
    (togglePlay 1800 (togglePlay 1500 (runTicks secondsClock 1 (togglePlay 0 initialState)))).countdown
      = 3 ∧
    (togglePlay 1800 (togglePlay 1500 (runTicks secondsClock 1 (togglePlay 0 initialState)))).isPlaying
      = true := by
  have h := resume_keeps_progress (runTicks secondsClock 1 (togglePlay 0 initialState))
    (reachable_runTicks secondsClock 1 (Reachable.step (Event.togglePlay 0) Reachable.init rfl))
    rfl 1500 1800
  exact ⟨h.2.2.2.1, h.2.1⟩


/-! ## Phase duration and countdown -/

theorem tick_phaseTime (now : ℚ) (s : State) : (tick now s).phaseTime = s.phaseTime := by
  cases hp : s.isPlaying
  · rw [tick_of_not_playing _ _ hp]
  · obtain ⟨b, hb, c1, c2, c3⟩ := tick_cases now s hp
    by_cases hcd : s.countdown ≤ 1
    · by_cases hend : (s.count + 1) % 4 = 3 ∧ b = true
      · rw [c1 hcd hend]
      · rw [c2 hcd hend]
    · rw [c3 hcd]

theorem runTicks_phaseTime (clock : Nat → ℚ) (n : Nat) (s : State) :
    (runTicks clock n s).phaseTime = s.phaseTime := by
  induction n with
  | zero => rfl
  | succ n ih => rw [runTicks, tick_phaseTime, ih]

/-- A tick that changes the phase resets the countdown to `phaseTime`; any other tick
of a playing session lowers a countdown above 1 by one. -/
theorem tick_countdown (now : ℚ) (s : State) :
    ((tick now s).count ≠ s.count → (tick now s).countdown = s.phaseTime) ∧
    ((tick now s).count = s.count → s.isPlaying = true →
      1 < s.countdown ∧ (tick now s).countdown = s.countdown - 1) ∧
    (s.isPlaying = true → s.countdown ≤ 1 → (tick now s).count = (s.count + 1) % 4) := by
  cases hp : s.isPlaying
  · rw [tick_of_not_playing _ _ hp]; simp
  · obtain ⟨b, hb, c1, c2, c3⟩ := tick_cases now s hp
    have hne : (s.count + 1) % 4 ≠ s.count := by omega
    by_cases hcd : s.countdown ≤ 1
    · by_cases hend : (s.count + 1) % 4 = 3 ∧ b = true
      · rw [c1 hcd hend]
        exact ⟨fun _ => rfl, fun h => absurd h hne, fun _ _ => rfl⟩
      · rw [c2 hcd hend]
        exact ⟨fun _ => rfl, fun h => absurd h hne, fun _ _ => rfl⟩
    · rw [c3 hcd]
      exact ⟨fun h => absurd rfl h, fun _ _ => ⟨by omega, rfl⟩, fun _ h => absurd h hcd⟩

/-- C9, refuted as stated: the initial session (phase duration 4) is paused after one
tick with countdown 3; moving the slider to 8 leaves the countdown at 3 but changes
the projected progress from 1/4 to 5/8, and after resuming, the next phase change (at
the third tick) resets the countdown to 8, not to the 4 the session was started
with. -/
theorem slider_rescales_paused_session :
    pausedSession.isPlaying = false ∧ pausedSession.hasStarted = true ∧
    pausedSession.phaseTime = 4 ∧ pausedSession.countdown = 3 ∧
    (setPhaseTime 8 pausedSession).countdown = 3 ∧
    pausedProgress pausedSession = 1 / 4 ∧
    pausedProgress (setPhaseTime 8 pausedSession) = 5 / 8 ∧
    pausedProgress (setPhaseTime 8 pausedSession) ≠ pausedProgress pausedSession ∧
    (runTicks secondsClock 3 (togglePlay 2000 (setPhaseTime 8 pausedSession))).count = 1 ∧
    (runTicks secondsClock 3 (togglePlay 2000 (setPhaseTime 8 pausedSession))).countdown = 8 ∧
    (runTicks secondsClock 3 (togglePlay 2000 (setPhaseTime 8 pausedSession))).countdown ≠ 4 := by
  have h1 : pausedSession.phaseTime = 4 := rfl
  have h2 : pausedSession.countdown = 3 := rfl
  have h3 : (setPhaseTime 8 pausedSession).phaseTime = 8 := rfl
  have h4 : (setPhaseTime 8 pausedSession).countdown = 3 := rfl
  have p1 : pausedProgress pausedSession = 1 / 4 := by
    rw [pausedProgress, h1, h2]; norm_num
  have p2 : pausedProgress (setPhaseTime 8 pausedSession) = 5 / 8 := by
    rw [pausedProgress, h3, h4]; norm_num
  have h5 : (runTicks secondsClock 3
      (togglePlay 2000 (setPhaseTime 8 pausedSession))).countdown = 8 := rfl
  refine ⟨rfl, rfl, h1, h2, h4, p1, p2, ?_, rfl, h5, ?_⟩
  · rw [p1, p2]; norm_num
  · rw [h5]; decide

/-- C9, amended: the slider handler changes `phaseTime` only, so on a paused session
the countdown, phase, elapsed time and flags are unchanged; but the new value `v` is
used at once: the projected progress becomes `(v - countdown) / v`, and after
resuming, every tick that changes the phase resets the countdown to `v`. -/
theorem slider_effect_on_paused_session (s : State) (v : Int)
    (hpaused : s.isPlaying = false) (hstarted : s.hasStarted = true) :
    (setPhaseTime v s).countdown = s.countdown ∧
    (setPhaseTime v s).count = s.count ∧
    (setPhaseTime v s).totalTime = s.totalTime ∧
    (setPhaseTime v s).timeLimitReached = s.timeLimitReached ∧
    (setPhaseTime v s).sessionComplete = s.sessionComplete ∧
    (setPhaseTime v s).isPlaying = false ∧
    (setPhaseTime v s).phaseTime = v ∧
    pausedProgress (setPhaseTime v s) = ((v : ℚ) - (s.countdown : ℚ)) / (v : ℚ) ∧
    (∀ t : ℚ, (togglePlay t (setPhaseTime v s)).isPlaying = true ∧
      (togglePlay t (setPhaseTime v s)).countdown = s.countdown ∧
      (togglePlay t (setPhaseTime v s)).count = s.count ∧
      (togglePlay t (setPhaseTime v s)).phaseTime = v) ∧
    (∀ (t : ℚ) (clock : Nat → ℚ) (n : Nat),
      (runTicks clock (n + 1) (togglePlay t (setPhaseTime v s))).count ≠
        (runTicks clock n (togglePlay t (setPhaseTime v s))).count →
      (runTicks clock (n + 1) (togglePlay t (setPhaseTime v s))).countdown = v) := by
  have hres : ∀ t : ℚ, togglePlay t (setPhaseTime v s) = _ :=
    fun t => togglePlay_paused t (setPhaseTime v s) hpaused hstarted
  refine ⟨rfl, rfl, rfl, rfl, rfl, hpaused, rfl, rfl, ?_, ?_⟩
  · intro t
    rw [hres t]
    exact ⟨rfl, rfl, rfl, rfl⟩
  · intro t clock n hne
    have hpt : (runTicks clock n (togglePlay t (setPhaseTime v s))).phaseTime = v := by
      rw [runTicks_phaseTime, hres t]; rfl
    have := (tick_countdown (clock n) (runTicks clock n (togglePlay t (setPhaseTime v s)))).1 hne
    rw [hpt] at this
    exact this

/-- C9 (amended) at the paused initial session with the slider moved to 8. -/
theorem slider_effect_on_paused_session_witness :
    (setPhaseTime 8 pausedSession).countdown = pausedSession.countdown ∧
    (togglePlay 2000 (setPhaseTime 8 pausedSession)).phaseTime = 8 :=
  ⟨(slider_effect_on_paused_session pausedSession 8 rfl rfl).1,
    ((slider_effect_on_paused_session pausedSession 8 rfl rfl).2.2.2.2.2.2.2.2.1 2000).2.2.2⟩


/-- What holds throughout a session with phase duration `p`. -/
theorem sessionReach_inv (p : Int) (hp : 1 ≤ p) {s : State} (h : SessionReach p s) :
    s.phaseTime = p ∧ s.hasStarted = true ∧ 1 ≤ s.countdown ∧ s.countdown ≤ p := by
  induction h with
  | start now s h1 h2 h3 =>
    rw [togglePlay_idle now s h1 h2]
    exact ⟨h3, rfl, by simp only; omega, by simp only; omega⟩
  | preset minutes now s h3 =>
    have e : startWithPreset minutes now s =
        togglePlay now (resetToStart { s with timeLimit := toString minutes }) := rfl
    rw [e, togglePlay_idle now _ rfl rfl]
    exact ⟨h3, rfl, by simp only [resetToStart]; omega, by simp only [resetToStart]; omega⟩
  | @tick now s _ ih =>
    obtain ⟨i1, i2, i3, i4⟩ := ih
    refine ⟨by rw [tick_phaseTime, i1], ?_, ?_, ?_⟩
    · cases hpl : s.isPlaying
      · rw [tick_of_not_playing _ _ hpl]; exact i2
      · obtain ⟨b, hb, c1, c2, c3⟩ := tick_cases now s hpl
        by_cases hcd : s.countdown ≤ 1
        · by_cases hend : (s.count + 1) % 4 = 3 ∧ b = true
          · rw [c1 hcd hend]; exact i2
          · rw [c2 hcd hend]; exact i2
        · rw [c3 hcd]; exact i2
    · cases hpl : s.isPlaying
      · rw [tick_of_not_playing _ _ hpl]; exact i3
      · obtain ⟨t1, t2, t3⟩ := tick_countdown now s
        by_cases hc : (tick now s).count = s.count
        · rw [(t2 hc hpl).2]; have := (t2 hc hpl).1; omega
        · rw [t1 hc, i1]; exact hp
    · cases hpl : s.isPlaying
      · rw [tick_of_not_playing _ _ hpl]; exact i4
      · obtain ⟨t1, t2, t3⟩ := tick_countdown now s
        by_cases hc : (tick now s).count = s.count
        · rw [(t2 hc hpl).2]; omega
        · rw [t1 hc, i1]
  | @toggle now s _ ih =>
    obtain ⟨i1, i2, i3, i4⟩ := ih
    cases hpl : s.isPlaying
    · rw [togglePlay_paused now s hpl i2]
      exact ⟨i1, i2, i3, i4⟩
    · have e : togglePlay now s = pause s := by simp [togglePlay, pause, hpl]
      rw [e]
      exact ⟨i1, i2, i3, i4⟩

/-- C10: with the phase duration held at `p` in [3,8], in every state of a session
(started from idle or by a preset, then ticked, paused and resumed in any order) the
countdown is an integer with `0 < countdown ≤ p`, and a tick that changes the phase
leaves the countdown at exactly `p`. -/
theorem countdown_bounds (p : Int) (hp3 : 3 ≤ p) (hp8 : p ≤ 8) (s : State)
    (h : SessionReach p s) :
    0 < s.countdown ∧ s.countdown ≤ p ∧ s.phaseTime = p ∧
    (∀ now, 0 < (tick now s).countdown ∧ (tick now s).countdown ≤ p) ∧
    (∀ now, (tick now s).count ≠ s.count → (tick now s).countdown = p) := by
  obtain ⟨i1, i2, i3, i4⟩ := sessionReach_inv p (by omega) h
  refine ⟨by omega, i4, i1, ?_, ?_⟩
  · intro now
    obtain ⟨j1, j2, j3, j4⟩ := sessionReach_inv p (by omega) (SessionReach.tick now h)
    exact ⟨by omega, j4⟩
  · intro now hne
    rw [(tick_countdown now s).1 hne, i1]

/-- C10 for the initial session (phase duration 4) after four ticks, the last of which
changed the phase. -/
theorem countdown_bounds_witness :
    SessionReach 4 (runTicks secondsClock 3 (togglePlay 0 initialState)) ∧
    (tick 4000 (runTicks secondsClock 3 (togglePlay 0 initialState))).count ≠
      (runTicks secondsClock 3 (togglePlay 0 initialState)).count ∧
    (tick 4000 (runTicks secondsClock 3 (togglePlay 0 initialState))).countdown = 4 := by
  have hr : SessionReach 4 (runTicks secondsClock 3 (togglePlay 0 initialState)) :=
    SessionReach.tick _ (SessionReach.tick _ (SessionReach.tick _
      (SessionReach.start 0 initialState rfl rfl rfl)))
  have hne : (tick 4000 (runTicks secondsClock 3 (togglePlay 0 initialState))).count ≠
      (runTicks secondsClock 3 (togglePlay 0 initialState)).count := by decide
  exact ⟨hr, hne, (countdown_bounds 4 (by decide) (by decide) _ hr).2.2.2.2 4000 hne⟩

/-! ## The completion tick for a general limit -/

theorem mod_four_mul_eq_iff (m p : Nat) (hp : 0 < p) :
    m % (4 * p) = 3 * p ↔ m % p = 0 ∧ (m / p) % 4 = 3 := by
  have h1 : m % (4 * p) = m % p + p * (m / p % 4) := by
    rw [Nat.mul_comm 4 p, Nat.mod_mul]
  have h2 : m % p < p := Nat.mod_lt m hp
  have h3 : m / p % 4 < 4 := Nat.mod_lt _ (by decide)
  rw [h1]
  generalize m / p % 4 = r at h3 ⊢
  generalize m % p = q at h2 ⊢
  interval_cases r <;> constructor <;> intro h <;> omega

theorem completionTick_spec (p L : Nat) (hp : 0 < p) :
    60 * L ≤ completionTick p L ∧ completionTick p L % (4 * p) = 3 * p ∧
    (∀ m, 60 * L ≤ m → m % (4 * p) = 3 * p → completionTick p L ≤ m) := by
  have hr : (60 * L) % (4 * p) < 4 * p := Nat.mod_lt _ (by omega)
  have hd := Nat.div_add_mod (60 * L) (4 * p)
  generalize (60 * L) / (4 * p) = d at hd
  unfold completionTick
  generalize (60 * L) % (4 * p) = r at hr hd ⊢
  by_cases hc : r ≤ 3 * p
  · rw [if_pos hc]
    have e : 60 * L + (3 * p - r) = 3 * p + 4 * p * d := by omega
    refine ⟨by omega, ?_, ?_⟩
    · rw [e, Nat.add_mul_mod_self_left]
      exact Nat.mod_eq_of_lt (by omega)
    · intro m hm hmod
      have hdm := Nat.div_add_mod m (4 * p)
      rw [hmod] at hdm
      generalize m / (4 * p) = dm at hdm
      rw [e]
      by_contra hlt
      have : dm < d := by
        by_contra hge
        have : 4 * p * d ≤ 4 * p * dm := Nat.mul_le_mul_left _ (by omega)
        omega
      have : 4 * p * (dm + 1) ≤ 4 * p * d := Nat.mul_le_mul_left _ (by omega)
      rw [Nat.mul_add] at this
      omega
  · rw [if_neg hc]
    have e : 60 * L + (4 * p - r) + 3 * p = 3 * p + 4 * p * (d + 1) := by
      rw [Nat.mul_add]; omega
    refine ⟨by omega, ?_, ?_⟩
    · rw [e, Nat.add_mul_mod_self_left]
      exact Nat.mod_eq_of_lt (by omega)
    · intro m hm hmod
      have hdm := Nat.div_add_mod m (4 * p)
      rw [hmod] at hdm
      generalize m / (4 * p) = dm at hdm
      rw [e]
      by_contra hlt
      have : dm < d + 1 := by
        by_contra hge
        have : 4 * p * (d + 1) ≤ 4 * p * dm := Nat.mul_le_mul_left _ (by omega)
        omega
      have : 4 * p * dm ≤ 4 * p * d := Nat.mul_le_mul_left _ (by omega)
      omega


theorem limitHit_of_parse (s : State) (L : Nat) (hne : s.timeLimit ≠ "")
    (hparse : parseInt s.timeLimit = some (L : Int)) :
    limitHit s = decide ((L : Int) * 60 ≤ s.totalTime) := by
  simp [limitHit, hne, hparse]

/-- Closed form of a running session with a limit of `L ≥ 1` minutes, as long as no
tick at or after the limit has entered Wait: the latch is on exactly from tick
`60 * L`. -/
theorem runTicks_before_completion (clock : Nat → ℚ) (s0 : State) (p L : Nat)
    (hp : 1 ≤ p) (hL : 1 ≤ L)
    (hplay : s0.isPlaying = true) (hpt : s0.phaseTime = p) (hcd : s0.countdown = p)
    (hc : s0.count = 0) (htt : s0.totalTime = 0) (htlr : s0.timeLimitReached = false)
    (hne : s0.timeLimit ≠ "") (hparse : parseInt s0.timeLimit = some (L : Int))
    (n : Nat) (hno : ∀ k, 60 * L ≤ k → k ≤ n → k % (4 * p) ≠ 3 * p) :
    (runTicks clock n s0).isPlaying = true ∧
    (runTicks clock n s0).count = (n / p) % 4 ∧
    (runTicks clock n s0).countdown = (p : Int) - ((n % p : Nat) : Int) ∧
    (runTicks clock n s0).totalTime = n ∧
    (runTicks clock n s0).timeLimitReached = decide (60 * L ≤ n) ∧
    (runTicks clock n s0).sessionComplete = s0.sessionComplete ∧
    (runTicks clock n s0).phaseTime = p ∧
    (runTicks clock n s0).timeLimit = s0.timeLimit := by
  induction n with
  | zero =>
    refine ⟨hplay, by simp [runTicks, hc], by simp [runTicks, hcd], by simp [runTicks, htt],
      ?_, rfl, hpt, rfl⟩
    have : ¬ (60 * L ≤ 0) := by omega
    simp [runTicks, htlr, this]
  | succ n ih =>
    obtain ⟨i1, i2, i3, i4, i5, i6, i7, i8⟩ := ih (fun k h1 h2 => hno k h1 (by omega))
    have hmod : n % p < p := Nat.mod_lt n (by omega)
    obtain ⟨b, hb, c1, c2, c3⟩ := tick_cases (clock n) (runTicks clock n s0) i1
    have hbv : b = decide (60 * L ≤ n + 1) := by
      rw [hb, limitHit_of_parse _ L (by simpa [i8] using hne) (by simpa [i8] using hparse),
        i5]
      simp only [i4]
      by_cases h1 : 60 * L ≤ n
      · have h2 : 60 * L ≤ n + 1 := by omega
        simp [h1, h2]
      · by_cases h2 : 60 * L ≤ n + 1
        · have h3 : (L : Int) * 60 ≤ (n : Int) + 1 := by omega
          simp [h1, h2, h3]
        · have h3 : ¬ ((L : Int) * 60 ≤ (n : Int) + 1) := by omega
          simp [h1, h2, h3]
    simp only [runTicks]
    by_cases hcase : n % p + 1 < p
    · obtain ⟨d1, d2⟩ := succ_div_mod_of_lt n p hcase
      have hcd2 : ¬ (runTicks clock n s0).countdown ≤ 1 := by rw [i3]; omega
      rw [c3 hcd2]
      refine ⟨i1, by rw [d1]; exact i2, ?_, ?_, hbv, i6, i7, i8⟩
      · show (runTicks clock n s0).countdown - 1 = _
        rw [i3, d2]; push_cast; ring
      · show (runTicks clock n s0).totalTime + 1 = _
        rw [i4]; push_cast; ring
    · obtain ⟨d1, d2⟩ := succ_div_mod_of_eq n p (by omega) (by omega)
      have hcd2 : (runTicks clock n s0).countdown ≤ 1 := by rw [i3]; omega
      have hend : ¬ (((runTicks clock n s0).count + 1) % 4 = 3 ∧ b = true) := by
        rintro ⟨e1, e2⟩
        rw [hbv] at e2
        have hle : 60 * L ≤ n + 1 := by simpa using e2
        apply hno (n + 1) hle (le_refl _)
        rw [mod_four_mul_eq_iff (n + 1) p (by omega)]
        refine ⟨d2, ?_⟩
        rw [d1]; rw [i2] at e1; omega
      rw [c2 hcd2 hend]
      refine ⟨i1, ?_, ?_, ?_, hbv, i6, i7, i8⟩
      · show ((runTicks clock n s0).count + 1) % 4 = _
        rw [i2, d1]; omega
      · show (runTicks clock n s0).phaseTime = _
        rw [i7, d2]; simp
      · show (runTicks clock n s0).totalTime + 1 = _
        rw [i4]; push_cast; ring

/-- The tick that completes the session: the first tick at or after the limit that
enters Wait. -/
theorem runTicks_at_completion (clock : Nat → ℚ) (s0 : State) (p L : Nat)
    (hp : 1 ≤ p) (hL : 1 ≤ L)
    (hplay : s0.isPlaying = true) (hpt : s0.phaseTime = p) (hcd : s0.countdown = p)
    (hc : s0.count = 0) (htt : s0.totalTime = 0) (htlr : s0.timeLimitReached = false)
    (hne : s0.timeLimit ≠ "") (hparse : parseInt s0.timeLimit = some (L : Int))
    (T : Nat) (h1 : 60 * L ≤ T) (h2 : T % (4 * p) = 3 * p)
    (hno : ∀ k, 60 * L ≤ k → k < T → k % (4 * p) ≠ 3 * p) :
    (runTicks clock T s0).isPlaying = false ∧
    (runTicks clock T s0).count = 3 ∧
    (runTicks clock T s0).countdown = p ∧
    (runTicks clock T s0).totalTime = T ∧
    (runTicks clock T s0).timeLimitReached = true ∧
    (runTicks clock T s0).sessionComplete = true := by
  obtain ⟨n, rfl⟩ : ∃ n, T = n + 1 := ⟨T - 1, by omega⟩
  obtain ⟨i1, i2, i3, i4, i5, i6, i7, i8⟩ :=
    runTicks_before_completion clock s0 p L hp hL hplay hpt hcd hc htt htlr hne hparse n
      (fun k k1 k2 => hno k k1 (by omega))
  obtain ⟨m1, m2⟩ := (mod_four_mul_eq_iff (n + 1) p (by omega)).1 h2
  have hmod : n % p < p := Nat.mod_lt n (by omega)
  have hcase : n % p + 1 = p := by
    by_contra hne2
    have := (succ_div_mod_of_lt n p (by omega)).2
    omega
  obtain ⟨d1, d2⟩ := succ_div_mod_of_eq n p (by omega) hcase
  obtain ⟨b, hb, c1, c2, c3⟩ := tick_cases (clock n) (runTicks clock n s0) i1
  have hbv : b = true := by
    rw [hb, limitHit_of_parse _ L (by simpa [i8] using hne) (by simpa [i8] using hparse)]
    have h3 : (L : Int) * 60 ≤ (n : Int) + 1 := by omega
    simp [i4, h3]
  have hcd2 : (runTicks clock n s0).countdown ≤ 1 := by rw [i3]; omega
  have hend : ((runTicks clock n s0).count + 1) % 4 = 3 ∧ b = true := by
    refine ⟨?_, hbv⟩
    rw [i2]; rw [d1] at m2; omega
  simp only [runTicks]
  rw [c1 hcd2 hend]
  refine ⟨rfl, hend.1, i7, ?_, hbv, rfl⟩
  show (runTicks clock n s0).totalTime + 1 = _
  rw [i4]; push_cast; ring


/-- C11: for a phase duration `p` in [3,8] and a limit of `L ≥ 1` minutes, a session
started from an idle state and ticked without pausing is incomplete after every tick
before `T` and complete after tick `T` (and after every later tick), where `T =
completionTick p L` is the least `n ≥ 60 * L` with `n % (4 * p) = 3 * p`, the first
tick at or after the limit at which the phase enters Wait. In particular, if the limit
falls strictly inside a Wait phase (`(60 * L) % (4 * p) > 3 * p`), then after tick
`60 * L` the phase is Wait, the latch is on and the session is not complete, and `T` is
`4 * p` ticks after the tick that entered that Wait. -/
theorem completion_at_first_wait_after_limit (p L : Nat) (hp3 : 3 ≤ p) (hp8 : p ≤ 8)
    (hL : 1 ≤ L) (s : State) (hplay : s.isPlaying = false) (hstart : s.hasStarted = false)
    (hpt : s.phaseTime = p) (hparse : parseInt s.timeLimit = some (L : Int))
    (t0 : ℚ) (clock : Nat → ℚ) :
    60 * L ≤ completionTick p L ∧ completionTick p L % (4 * p) = 3 * p ∧
    (∀ m, 60 * L ≤ m → m % (4 * p) = 3 * p → completionTick p L ≤ m) ∧
    (∀ n, n < completionTick p L →
      (runTicks clock n (togglePlay t0 s)).sessionComplete = false ∧
      (runTicks clock n (togglePlay t0 s)).isPlaying = true ∧
      (runTicks clock n (togglePlay t0 s)).count = (n / p) % 4 ∧
      (runTicks clock n (togglePlay t0 s)).timeLimitReached = decide (60 * L ≤ n)) ∧
    (runTicks clock (completionTick p L) (togglePlay t0 s)).count = 3 ∧
    (runTicks clock (completionTick p L) (togglePlay t0 s)).timeLimitReached = true ∧
    (∀ n, completionTick p L ≤ n →
      (runTicks clock n (togglePlay t0 s)).sessionComplete = true ∧
      (runTicks clock n (togglePlay t0 s)).isPlaying = false) ∧
    (3 * p < (60 * L) % (4 * p) →
      (runTicks clock (60 * L) (togglePlay t0 s)).count = 3 ∧
      (runTicks clock (60 * L) (togglePlay t0 s)).timeLimitReached = true ∧
      (runTicks clock (60 * L) (togglePlay t0 s)).sessionComplete = false ∧
      60 * L < completionTick p L ∧
      completionTick p L = (60 * L - ((60 * L) % (4 * p) - 3 * p)) + 4 * p) := by
  have hp0 : 0 < p := by omega
  obtain ⟨s1, s2, s3⟩ := completionTick_spec p L hp0
  have hs0 := togglePlay_idle t0 s hplay hstart
  have hne : s.timeLimit ≠ "" := by
    intro h
    rw [h] at hparse
    have : parseInt "" = none := by decide
    rw [this] at hparse
    cases hparse
  have hno : ∀ k, 60 * L ≤ k → k < completionTick p L → k % (4 * p) ≠ 3 * p := by
    intro k k1 k2 k3
    have := s3 k k1 k3
    omega
  have before : ∀ n, n < completionTick p L → _ := fun n hn =>
    runTicks_before_completion clock (togglePlay t0 s) p L hp0 hL (by rw [hs0])
      (by rw [hs0]; exact hpt) (by rw [hs0]; exact hpt) (by rw [hs0]) (by rw [hs0])
      (by rw [hs0]) (by rw [hs0]; exact hne) (by rw [hs0]; exact hparse) n
      (fun k k1 k2 => hno k k1 (by omega))
  have hsc0 : (togglePlay t0 s).sessionComplete = false := by rw [hs0]
  obtain ⟨a1, a2, a3, a4, a5, a6⟩ :=
    runTicks_at_completion clock (togglePlay t0 s) p L hp0 hL (by rw [hs0])
      (by rw [hs0]; exact hpt) (by rw [hs0]; exact hpt) (by rw [hs0]) (by rw [hs0])
      (by rw [hs0]) (by rw [hs0]; exact hne) (by rw [hs0]; exact hparse)
      (completionTick p L) s1 s2 hno
  refine ⟨s1, s2, s3, ?_, a2, a5, ?_, ?_⟩
  · intro n hn
    obtain ⟨i1, i2, i3, i4, i5, i6, -⟩ := before n hn
    exact ⟨by rw [i6, hsc0], i1, i2, i5⟩
  · intro n hn
    obtain ⟨k, rfl⟩ := Nat.exists_eq_add_of_le hn
    rw [runTicks_add, runTicks_of_not_playing _ _ _ a1]
    exact ⟨a6, a1⟩
  · intro hin
    have hlt : 60 * L < completionTick p L := by
      rcases Nat.lt_or_ge (60 * L) (completionTick p L) with h | h
      · exact h
      · have : completionTick p L = 60 * L := by omega
        rw [this] at s2
        omega
    have hT : completionTick p L = (60 * L - ((60 * L) % (4 * p) - 3 * p)) + 4 * p := by
      have hr : (60 * L) % (4 * p) ≤ 60 * L := Nat.mod_le _ _
      have hr4 : (60 * L) % (4 * p) < 4 * p := Nat.mod_lt _ (by omega)
      unfold completionTick
      rw [if_neg (by omega)]
      omega
    obtain ⟨i1, i2, i3, i4, i5, i6, -⟩ := before (60 * L) hlt
    refine ⟨?_, ?_, by rw [i6, hsc0], hlt, hT⟩
    · rw [i2]
      have h1 : (60 * L) % (4 * p) = (60 * L) % p + p * ((60 * L) / p % 4) := by
        rw [Nat.mul_comm 4 p, Nat.mod_mul]
      have h2 : (60 * L) % p < p := Nat.mod_lt _ hp0
      have h3 : (60 * L) / p % 4 < 4 := Nat.mod_lt _ (by decide)
      rw [h1] at hin
      generalize (60 * L) / p % 4 = r at h3 hin ⊢
      generalize (60 * L) % p = q at h2 hin
      interval_cases r <;> omega
    · rw [i5]; simp

/-- C11 at `p = 7`, `L = 6`: the limit is reached at tick 360 inside Wait, and the
session completes at tick 385. -/
theorem completion_at_first_wait_after_limit_witness :
    completionTick 7 6 = 385 ∧
    (runTicks secondsClock 360
      (togglePlay 0 (setTimeLimit "6" (setPhaseTime 7 initialState)))).count = 3 ∧
    (runTicks secondsClock 360
      (togglePlay 0 (setTimeLimit "6" (setPhaseTime 7 initialState)))).timeLimitReached
      = true ∧
    (runTicks secondsClock 384
      (togglePlay 0 (setTimeLimit "6" (setPhaseTime 7 initialState)))).sessionComplete
      = false ∧
    (runTicks secondsClock 385
      (togglePlay 0 (setTimeLimit "6" (setPhaseTime 7 initialState)))).sessionComplete
      = true := by
  have h := completion_at_first_wait_after_limit 7 6 (by decide) (by decide) (by decide)
    (setTimeLimit "6" (setPhaseTime 7 initialState)) rfl rfl rfl (by decide) 0 secondsClock
  have hT : completionTick 7 6 = 385 := by decide
  obtain ⟨-, -, -, h4, -, -, h7, h8⟩ := h
  obtain ⟨w1, w2, -⟩ := h8 (by decide)
  exact ⟨hT, w1, w2, (h4 384 (by rw [hT]; decide)).1, (h7 385 (by rw [hT])).1⟩

end BoxBreathing
